import Mathlib

/-!
Verification development for the host-agent orchestration layer of the
repository: the task registry and state machine, artifact-chunk reassembly,
conversation sanitation, the remote-agent dispatch loop, the inbound
message-processing loop, and the bidirectional content conversion.

The embedding is shallow: each Python method of
`host_agent/host_manager.py` and `host_agent/remote_agent_connections.py`
becomes a pure Lean function over an explicit `HostState`.  Python dicts
are modelled as insertion-ordered association lists, Python exceptions as
`Except` results, and the two sources of external nondeterminism
(`uuid.uuid4()` and wall-clock timestamps) as a monotone counter threaded
through the state.  Python truthiness of optional strings/booleans is
modelled explicitly (`None` and `""` are falsy; `None` and `False` are
falsy).
-/

namespace A2A

/-!  ## A model of Python's `json` module

`DataPart` payloads are JSON values and `host_manager.py` round-trips them
through `json.dumps` / `json.loads`.  JSON numbers are modelled as
integers (floats do not occur in any property under study), and strings
are serialized without the `ensure_ascii` escaping of non-ASCII
characters; both simplifications are irrelevant to the inputs the
theorems below evaluate.
-/

inductive JsonValue where
  | null : JsonValue
  | bool (b : Bool) : JsonValue
  | num (n : Int) : JsonValue
  | str (s : String) : JsonValue
  | arr (xs : List JsonValue) : JsonValue
  | obj (fields : List (String × JsonValue)) : JsonValue
deriving Repr

mutual

def jsonDecEq : (a b : JsonValue) → Decidable (a = b)
  | .null, .null => .isTrue rfl
  | .null, .bool _ => .isFalse (fun h => JsonValue.noConfusion h)
  | .null, .num _ => .isFalse (fun h => JsonValue.noConfusion h)
  | .null, .str _ => .isFalse (fun h => JsonValue.noConfusion h)
  | .null, .arr _ => .isFalse (fun h => JsonValue.noConfusion h)
  | .null, .obj _ => .isFalse (fun h => JsonValue.noConfusion h)
  | .bool _, .null => .isFalse (fun h => JsonValue.noConfusion h)
  | .bool a, .bool b =>
    match decEq a b with
    | .isTrue h => .isTrue (by rw [h])
    | .isFalse h => .isFalse (fun he => h (JsonValue.bool.inj he))
  | .bool _, .num _ => .isFalse (fun h => JsonValue.noConfusion h)
  | .bool _, .str _ => .isFalse (fun h => JsonValue.noConfusion h)
  | .bool _, .arr _ => .isFalse (fun h => JsonValue.noConfusion h)
  | .bool _, .obj _ => .isFalse (fun h => JsonValue.noConfusion h)
  | .num _, .null => .isFalse (fun h => JsonValue.noConfusion h)
  | .num _, .bool _ => .isFalse (fun h => JsonValue.noConfusion h)
  | .num a, .num b =>
    match decEq a b with
    | .isTrue h => .isTrue (by rw [h])
    | .isFalse h => .isFalse (fun he => h (JsonValue.num.inj he))
  | .num _, .str _ => .isFalse (fun h => JsonValue.noConfusion h)
  | .num _, .arr _ => .isFalse (fun h => JsonValue.noConfusion h)
  | .num _, .obj _ => .isFalse (fun h => JsonValue.noConfusion h)
  | .str _, .null => .isFalse (fun h => JsonValue.noConfusion h)
  | .str _, .bool _ => .isFalse (fun h => JsonValue.noConfusion h)
  | .str _, .num _ => .isFalse (fun h => JsonValue.noConfusion h)
  | .str a, .str b =>
    match decEq a b with
    | .isTrue h => .isTrue (by rw [h])
    | .isFalse h => .isFalse (fun he => h (JsonValue.str.inj he))
  | .str _, .arr _ => .isFalse (fun h => JsonValue.noConfusion h)
  | .str _, .obj _ => .isFalse (fun h => JsonValue.noConfusion h)
  | .arr _, .null => .isFalse (fun h => JsonValue.noConfusion h)
  | .arr _, .bool _ => .isFalse (fun h => JsonValue.noConfusion h)
  | .arr _, .num _ => .isFalse (fun h => JsonValue.noConfusion h)
  | .arr _, .str _ => .isFalse (fun h => JsonValue.noConfusion h)
  | .arr xs, .arr ys =>
    match jsonListDecEq xs ys with
    | .isTrue h => .isTrue (by rw [h])
    | .isFalse h => .isFalse (fun he => h (JsonValue.arr.inj he))
  | .arr _, .obj _ => .isFalse (fun h => JsonValue.noConfusion h)
  | .obj _, .null => .isFalse (fun h => JsonValue.noConfusion h)
  | .obj _, .bool _ => .isFalse (fun h => JsonValue.noConfusion h)
  | .obj _, .num _ => .isFalse (fun h => JsonValue.noConfusion h)
  | .obj _, .str _ => .isFalse (fun h => JsonValue.noConfusion h)
  | .obj _, .arr _ => .isFalse (fun h => JsonValue.noConfusion h)
  | .obj xs, .obj ys =>
    match jsonFieldsDecEq xs ys with
    | .isTrue h => .isTrue (by rw [h])
    | .isFalse h => .isFalse (fun he => h (JsonValue.obj.inj he))

def jsonListDecEq : (a b : List JsonValue) → Decidable (a = b)
  | [], [] => .isTrue rfl
  | [], _ :: _ => .isFalse (fun h => List.noConfusion h)
  | _ :: _, [] => .isFalse (fun h => List.noConfusion h)
  | x :: xs, y :: ys =>
    match jsonDecEq x y with
    | .isFalse h1 => .isFalse (fun he => h1 (List.cons.inj he).1)
    | .isTrue h1 =>
      match jsonListDecEq xs ys with
      | .isTrue h2 => .isTrue (by rw [h1, h2])
      | .isFalse h2 => .isFalse (fun he => h2 (List.cons.inj he).2)

def jsonFieldsDecEq : (a b : List (String × JsonValue)) → Decidable (a = b)
  | [], [] => .isTrue rfl
  | [], _ :: _ => .isFalse (fun h => List.noConfusion h)
  | _ :: _, [] => .isFalse (fun h => List.noConfusion h)
  | (k1, v1) :: xs, (k2, v2) :: ys =>
    match decEq k1 k2 with
    | .isFalse h1 => .isFalse (fun he => h1 (congrArg Prod.fst (List.cons.inj he).1))
    | .isTrue h1 =>
      match jsonDecEq v1 v2 with
      | .isFalse h2 => .isFalse (fun he => h2 (congrArg Prod.snd (List.cons.inj he).1))
      | .isTrue h2 =>
        match jsonFieldsDecEq xs ys with
        | .isTrue h3 => .isTrue (by rw [h1, h2, h3])
        | .isFalse h3 => .isFalse (fun he => h3 (List.cons.inj he).2)

end

instance : DecidableEq JsonValue := jsonDecEq

/-- Escaping of one character inside a JSON string literal, as
`json.dumps` does for the characters that can occur in our inputs. -/
def jsonEscapeChar (c : Char) : String :=
  if c = '"' then "\\\""
  else if c = '\\' then "\\\\"
  else if c = '\n' then "\\n"
  else if c = '\r' then "\\r"
  else if c = '\t' then "\\t"
  else String.mk [c]

def jsonEscape (s : String) : String :=
  "\"" ++ String.join (s.toList.map jsonEscapeChar) ++ "\""

def joinSep (sep : String) : List String → String
  | [] => ""
  | [x] => x
  | x :: xs => x ++ sep ++ joinSep sep xs

mutual

/-- Model of `json.dumps` with Python's default separators `", "` and
`": "`. -/
def json_dumps : JsonValue → String
  | .null => "null"
  | .bool true => "true"
  | .bool false => "false"
  | .num n => toString n
  | .str s => jsonEscape s
  | .arr xs => "[" ++ joinSep ", " (json_dumps_list xs) ++ "]"
  | .obj fields => "\x7b" ++ joinSep ", " (json_dumps_fields fields) ++ "\x7d"

def json_dumps_list : List JsonValue → List String
  | [] => []
  | x :: xs => json_dumps x :: json_dumps_list xs

def json_dumps_fields : List (String × JsonValue) → List String
  | [] => []
  | (k, v) :: xs => (jsonEscape k ++ ": " ++ json_dumps v) :: json_dumps_fields xs

end

def jsonWs (c : Char) : Bool :=
  c = ' ' || c = '\n' || c = '\t' || c = '\r'

def skipWs : List Char → List Char
  | [] => []
  | c :: cs => if jsonWs c then skipWs cs else c :: cs

def isDigitChar (c : Char) : Bool := '0' ≤ c && c ≤ '9'

def digitsToNat (acc : Nat) : List Char → Nat × List Char
  | [] => (acc, [])
  | c :: cs =>
    if isDigitChar c then digitsToNat (acc * 10 + (c.toNat - '0'.toNat)) cs
    else (acc, c :: cs)

/-- Parse the body of a JSON string literal (after the opening quote),
understanding the escapes produced by `jsonEscape` plus `\/`, `\b`, `\f`. -/
def parseStringBody (fuel : Nat) (acc : List Char) : List Char → Option (String × List Char)
  | [] => none
  | c :: cs =>
    match fuel with
    | 0 => none
    | fuel + 1 =>
      if c = '"' then some (String.mk acc.reverse, cs)
      else if c = '\\' then
        match cs with
        | [] => none
        | e :: cs2 =>
          if e = '"' then parseStringBody fuel ('"' :: acc) cs2
          else if e = '\\' then parseStringBody fuel ('\\' :: acc) cs2
          else if e = '/' then parseStringBody fuel ('/' :: acc) cs2
          else if e = 'n' then parseStringBody fuel ('\n' :: acc) cs2
          else if e = 'r' then parseStringBody fuel ('\r' :: acc) cs2
          else if e = 't' then parseStringBody fuel ('\t' :: acc) cs2
          else none
      else parseStringBody fuel (c :: acc) cs

mutual

/-- A recursive-descent model of `json.loads` over a character list, with
fuel for termination; `jsonParseValue fuel cs` consumes one JSON value. -/
def jsonParseValue : Nat → List Char → Option (JsonValue × List Char)
  | 0, _ => none
  | _ + 1, [] => none
  | fuel + 1, c :: cs =>
    if c = 'n' then
      match cs with
      | 'u' :: 'l' :: 'l' :: rest => some (.null, rest)
      | _ => none
    else if c = 't' then
      match cs with
      | 'r' :: 'u' :: 'e' :: rest => some (.bool true, rest)
      | _ => none
    else if c = 'f' then
      match cs with
      | 'a' :: 'l' :: 's' :: 'e' :: rest => some (.bool false, rest)
      | _ => none
    else if c = '-' then
      match cs with
      | d :: rest =>
        if isDigitChar d then
          let (n, rest2) := digitsToNat (d.toNat - '0'.toNat) rest
          some (.num (-(n : Int)), rest2)
        else none
      | [] => none
    else if isDigitChar c then
      let (n, rest) := digitsToNat (c.toNat - '0'.toNat) cs
      some (.num (n : Int), rest)
    else if c = '"' then
      match parseStringBody (cs.length + 1) [] cs with
      | some (s, rest) => some (.str s, rest)
      | none => none
    else if c = '[' then
      match skipWs cs with
      | ']' :: rest => some (.arr [], rest)
      | cs2 => jsonParseItems fuel cs2 []
    else if c = '\x7b' then
      match skipWs cs with
      | '\x7d' :: rest => some (.obj [], rest)
      | cs2 => jsonParseFields fuel cs2 []
    else none

/-- Parse the remaining comma-separated items of a non-empty JSON array. -/
def jsonParseItems : Nat → List Char → List JsonValue → Option (JsonValue × List Char)
  | 0, _, _ => none
  | fuel + 1, cs, acc =>
    match jsonParseValue fuel (skipWs cs) with
    | none => none
    | some (v, rest) =>
      match skipWs rest with
      | ',' :: rest2 => jsonParseItems fuel rest2 (v :: acc)
      | ']' :: rest2 => some (.arr (acc.reverse ++ [v]), rest2)
      | _ => none

/-- Parse the remaining key-value pairs of a non-empty JSON object. -/
def jsonParseFields : Nat → List Char → List (String × JsonValue) → Option (JsonValue × List Char)
  | 0, _, _ => none
  | fuel + 1, cs, acc =>
    match skipWs cs with
    | '"' :: cs2 =>
      match parseStringBody (cs2.length + 1) [] cs2 with
      | none => none
      | some (k, rest) =>
        match skipWs rest with
        | ':' :: rest2 =>
          match jsonParseValue fuel (skipWs rest2) with
          | none => none
          | some (v, rest3) =>
            match skipWs rest3 with
            | ',' :: rest4 => jsonParseFields fuel rest4 ((k, v) :: acc)
            | '\x7d' :: rest4 => some (.obj (acc.reverse ++ [(k, v)]), rest4)
            | _ => none
        | _ => none
    | _ => none

end

/-- Model of `json.loads`: succeeds only when the whole input is one JSON
value (surrounded by optional whitespace), as Python's does. -/
def json_loads (s : String) : Option JsonValue :=
  match jsonParseValue (s.length + 1) (skipWs s.toList) with
  | some (v, rest) => if skipWs rest = [] then some v else none
  | none => none

/-!  ## Bytes, UTF-8 and base64 (models of `str.encode` and `base64.b64encode`) -/

/-- UTF-8 encoding of one character, as a list of byte values. -/
def utf8EncodeOne (c : Char) : List Nat :=
  let n := c.toNat
  if n < 0x80 then [n]
  else if n < 0x800 then
    [0xC0 + n / 0x40, 0x80 + n % 0x40]
  else if n < 0x10000 then
    [0xE0 + n / 0x1000, 0x80 + n / 0x40 % 0x40, 0x80 + n % 0x40]
  else
    [0xF0 + n / 0x40000, 0x80 + n / 0x1000 % 0x40, 0x80 + n / 0x40 % 0x40, 0x80 + n % 0x40]

/-- Model of Python's `s.encode("utf-8")`. -/
def utf8Bytes (s : String) : List Nat :=
  (s.toList.map utf8EncodeOne).flatten

def b64Alphabet : List Char :=
  "ABCDEFGHIJKLMNOPQRSTUVWXYZabcdefghijklmnopqrstuvwxyz0123456789+/".toList

def b64Char (n : Nat) : Char := (b64Alphabet.getD n 'A')

/-- Model of `base64.b64encode(bytes).decode("utf-8")`. -/
def b64encode : List Nat → String
  | b0 :: b1 :: b2 :: rest =>
    let n := b0 % 256 * 65536 + b1 % 256 * 256 + b2 % 256
    String.mk [b64Char (n / 262144), b64Char (n / 4096 % 64), b64Char (n / 64 % 64), b64Char (n % 64)]
      ++ b64encode rest
  | [b0, b1] =>
    let n := b0 % 256 * 65536 + b1 % 256 * 256
    String.mk [b64Char (n / 262144), b64Char (n / 4096 % 64), b64Char (n / 64 % 64), '=']
  | [b0] =>
    let n := b0 % 256 * 65536
    String.mk [b64Char (n / 262144), b64Char (n / 4096 % 64), '=', '=']
  | [] => ""

/-!  ## Python truthiness and dict helpers -/

/-- Truthiness of an optional Python string: `None` and `""` are falsy. -/
def pyStr : Option String → Bool
  | none => false
  | some s => !(s == "")

/-- Truthiness of an optional Python bool: `None` and `False` are falsy. -/
def pyBool : Option Bool → Bool
  | none => false
  | some b => b

/-- Python `dict` lookup (`d[k]` / `k in d`); dicts are modelled as
insertion-ordered association lists with unique keys. -/
def dictGet {α : Type} (d : List (String × α)) (k : String) : Option α :=
  (d.find? (fun kv => kv.1 == k)).map (fun kv => kv.2)

/-- Python `d[k] = v`: replaces in place when the key exists, appends at
the end (insertion order) when it does not. -/
def dictSet {α : Type} (d : List (String × α)) (k : String) (v : α) : List (String × α) :=
  match d with
  | [] => [(k, v)]
  | (k2, v2) :: rest => if k2 == k then (k, v) :: rest else (k2, v2) :: dictSet rest k v

/-!  ## The wire data model (`a2a.types`), as used by the source

Only the attributes the host-agent code reads or writes are modelled.
-/

inductive Role where
  | user : Role
  | agent : Role
deriving DecidableEq, Repr

inductive FileContent where
  /-- `FileWithBytes`: `bytes` holds a base64 string, per the wire format. -/
  | withBytes (bytes : String) (mimeType : Option String) (name : Option String) : FileContent
  /-- `FileWithUri`. -/
  | withUri (uri : String) (mimeType : Option String) (name : Option String) : FileContent
deriving DecidableEq, Repr

/-- The `Part` tagged union (`TextPart` / `DataPart` / `FilePart`). -/
inductive Part where
  | text (text : String) : Part
  | data (data : JsonValue) : Part
  | file (file : FileContent) : Part
deriving DecidableEq, Repr

structure Message where
  messageId : String
  role : Role
  parts : List Part
  contextId : Option String
  taskId : Option String
deriving DecidableEq, Repr

inductive TaskState where
  | submitted : TaskState
  | working : TaskState
  | input_required : TaskState
  | completed : TaskState
  | canceled : TaskState
  | failed : TaskState
  | unknown : TaskState
deriving DecidableEq, Repr

/-- Python `str(state)` on the `TaskState` str-enum. -/
def stateStr : TaskState → String
  | .submitted => "TaskState.submitted"
  | .working => "TaskState.working"
  | .input_required => "TaskState.input_required"
  | .completed => "TaskState.completed"
  | .canceled => "TaskState.canceled"
  | .failed => "TaskState.failed"
  | .unknown => "TaskState.unknown"

structure TaskStatus where
  state : TaskState
  message : Option Message
deriving DecidableEq, Repr

structure Artifact where
  artifactId : String
  name : Option String
  parts : List Part
deriving DecidableEq, Repr

/-- `a2a.types.Task`; `artifacts`/`history` may be `None` in Python, but
every access in the source first normalises `None` to `[]` (or treats
both as falsy), so they are modelled as plain lists. -/
structure Task where
  id : String
  contextId : Option String
  status : TaskStatus
  artifacts : List Artifact
  history : List Message
deriving DecidableEq, Repr

structure TaskStatusUpdateEvent where
  taskId : String
  contextId : Option String
  status : TaskStatus
  final : Bool
deriving DecidableEq, Repr

structure TaskArtifactUpdateEvent where
  taskId : String
  contextId : Option String
  artifact : Artifact
  append : Option Bool
  lastChunk : Option Bool
deriving DecidableEq, Repr

/-- `TaskCallbackArg = Task | TaskStatusUpdateEvent | TaskArtifactUpdateEvent`
(`remote_agent_connections.py`). -/
inductive TaskCallbackArg where
  | task (t : Task) : TaskCallbackArg
  | statusUpdate (e : TaskStatusUpdateEvent) : TaskCallbackArg
  | artifactUpdate (e : TaskArtifactUpdateEvent) : TaskCallbackArg
deriving DecidableEq, Repr

/-- Modelled from the spec: `application_manager.Conversation` is imported
by `host_manager.py` but its module is not part of the sources; per the
spec it is `conversation_id` (== session id), `is_active`, and the ordered
`messages`. -/
structure Conversation where
  conversation_id : String
  is_active : Bool
  messages : List Message
deriving DecidableEq, Repr

/-- Modelled from the spec: `application_manager.Event` — `id`, `actor`,
`content` (a Message), `timestamp` (a sort key only; modelled as the value
of the monotone counter at creation time). -/
structure Event where
  id : String
  actor : String
  content : Message
  timestamp : Nat
deriving DecidableEq, Repr

/-!  ## The `ADKHostManager` state

The mutable attributes of `ADKHostManager` that the claims touch, plus a
counter `gen` modelling the two external oracles `uuid.uuid4()` and the
wall clock.
-/

structure HostState where
  conversations : List Conversation
  messages : List Message
  tasks : List Task
  events : List (String × Event)
  pending_message_ids : List String
  artifact_chunks : List (String × List Artifact)
  task_map : List (String × String)
  gen : Nat
deriving DecidableEq, Repr

/-- Draw a fresh identifier from the counter (model of `uuid.uuid4()`). -/
def fresh (st : HostState) : String × HostState :=
  ("id_" ++ toString st.gen, { st with gen := st.gen + 1 })

def emptyState : HostState :=
  { conversations := [], messages := [], tasks := [], events := [],
    pending_message_ids := [], artifact_chunks := [], task_map := [], gen := 0 }

/-- First task whose `id` equals `tid`
(`next(filter(lambda x: x.id == task_id, self._tasks), None)`). -/
def findTask (st : HostState) (tid : String) : Option Task :=
  st.tasks.find? (fun x => x.id == tid)

/-!  ## Embeddings of `host_manager.py` -/

/-- `host_manager.task_still_open` (lines 690-697). -/
def task_still_open : Option Task → Bool
  | none => false
  | some task =>
    [TaskState.submitted, TaskState.working, TaskState.input_required].contains task.status.state

/-- `ADKHostManager.get_conversation` (lines 423-434). -/
def get_conversation (st : HostState) (conversation_id : Option String) : Option Conversation :=
  if pyStr conversation_id then
    st.conversations.find? (fun c => some c.conversation_id == conversation_id)
  else none

/-- `ADKHostManager.sanitize_message` (lines 134-150): attach the open
task of the conversation's last message, if any, to the new message. -/
def sanitize_message (st : HostState) (message : Message) : Message :=
  if pyStr message.contextId then
    match get_conversation st message.contextId with
    | none => message
    | some conversation =>
      match conversation.messages.getLast? with
      | none => message
      | some lastm =>
        match lastm.taskId with
        | none => message
        | some tid =>
          if tid ≠ "" ∧ task_still_open (findTask st tid) then
            { message with taskId := some tid }
          else message
  else message

/-- `ADKHostManager.add_task` (lines 252-253). -/
def add_task (st : HostState) (task : Task) : HostState :=
  { st with tasks := st.tasks ++ [task] }

/-- `ADKHostManager.update_task` (lines 255-259): replace the first task
with the same id, if any. -/
def update_task_list (task : Task) : List Task → List Task
  | [] => []
  | t :: ts => if t.id == task.id then task :: ts else t :: update_task_list task ts

def update_task (st : HostState) (task : Task) : HostState :=
  { st with tasks := update_task_list task st.tasks }

/-- `ADKHostManager.attach_message_to_task` (lines 340-342). -/
def attach_message_to_task (st : HostState) (message : Option Message) (task_id : String) : HostState :=
  match message with
  | none => st
  | some m => { st with task_map := dictSet st.task_map m.messageId task_id }

/-- `ADKHostManager.insert_message_history` (lines 344-364).  The history
is extended with `task.status.message` (not the parameter) and
deduplicated by message id; the final `else` only prints. -/
def insert_message_history (task : Task) (message : Option Message) : Task :=
  match message with
  | none => task
  | some message =>
    if message.messageId == "" then task
    else
      match task.status.message with
      | some sm =>
        if task.history ≠ [] then
          if ¬ (task.history.map (fun x => x.messageId)).contains sm.messageId then
            { task with history := task.history ++ [sm] }
          else task
        else { task with history := [sm] }
      | none => task

/-- `ADKHostManager.add_event` (lines 420-421). -/
def add_event (st : HostState) (event : Event) : HostState :=
  { st with events := dictSet st.events event.id event }

/-- `ADKHostManager.add_or_get_task` (lines 366-389): locate the task by
the event's task id, creating it in state `submitted` when absent. -/
def add_or_get_task (st : HostState) (event : TaskCallbackArg) : Task × HostState :=
  let task_id0 : Option String :=
    match event with
    | .task t => some t.id
    | .statusUpdate e => some e.taskId
    | .artifactUpdate e => some e.taskId
  let (task_id, st) :=
    if pyStr task_id0 then (task_id0.getD "", st)
    else
      let (u, st) := fresh st
      (u, st)
  match st.tasks.find? (fun x => x.id == task_id) with
  | some current_task => (current_task, st)
  | none =>
    let context_id :=
      match event with
      | .task t => t.contextId
      | .statusUpdate e => e.contextId
      | .artifactUpdate e => e.contextId
    let current_task : Task :=
      { id := task_id, contextId := context_id,
        status := { state := .submitted, message := none },
        artifacts := [], history := [] }
    (current_task, add_task st current_task)

/-- `ADKHostManager.process_artifact_event` (lines 391-418).  The scratch
buffer is `self._artifact_chunks`; the unguarded `[...][-1]` lookups on
the `append` path are modelled as `Except.error` (Python `KeyError` /
`IndexError`). -/
def process_artifact_event (chunks : List (String × List Artifact))
    (current_task : Task) (e : TaskArtifactUpdateEvent) :
    Except String (Task × List (String × List Artifact)) :=
  let artifact := e.artifact
  if ¬ pyBool e.append then
    if e.lastChunk = none ∨ e.lastChunk = some true then
      -- lastChunk missing or true: the entire payload, append to artifacts
      .ok ({ current_task with artifacts := current_task.artifacts ++ [artifact] }, chunks)
    else
      -- first chunk of a multi-chunk artifact: stash it in the temp store
      let slot := (dictGet chunks artifact.artifactId).getD []
      .ok (current_task, dictSet chunks artifact.artifactId (slot ++ [artifact]))
  else
    -- append chunk: extend the most recently stashed fragment
    match dictGet chunks artifact.artifactId with
    | none => .error "KeyError"
    | some [] => .error "IndexError"
    | some (a :: rest) =>
      let slot := a :: rest
      let tmp := slot.getLast (List.cons_ne_nil a rest)
      let tmp := { tmp with parts := tmp.parts ++ artifact.parts }
      if pyBool e.lastChunk then
        .ok ({ current_task with artifacts := current_task.artifacts ++ [tmp] },
          dictSet chunks artifact.artifactId slot.dropLast)
      else
        .ok (current_task, dictSet chunks artifact.artifactId (slot.dropLast ++ [tmp]))

/-- `ADKHostManager.emit_event` (lines 287-338): log every callback
argument as an `Event`, synthesising an agent `Message` when the event
carries none. -/
def emit_event (st : HostState) (task : TaskCallbackArg) (agent_name : String) : HostState :=
  let (content, st) :=
    match task with
    | .statusUpdate e =>
      match e.status.message with
      | some m => (m, st)
      | none =>
        let (u, st) := fresh st
        (({ parts := [.text (stateStr e.status.state)], role := .agent,
            messageId := u, contextId := e.contextId, taskId := some e.taskId } : Message), st)
    | .artifactUpdate e =>
      let (u, st) := fresh st
      (({ parts := e.artifact.parts, role := .agent, messageId := u,
          contextId := e.contextId, taskId := some e.taskId } : Message), st)
    | .task t =>
      match t.status.message with
      | some m => (m, st)
      | none =>
        if t.artifacts ≠ [] then
          let (u, st) := fresh st
          (({ parts := (t.artifacts.map (fun a => a.parts)).flatten, role := .agent,
              messageId := u, taskId := some t.id, contextId := t.contextId } : Message), st)
        else
          let (u, st) := fresh st
          (({ parts := [.text (stateStr t.status.state)], role := .agent,
              messageId := u, taskId := some t.id, contextId := t.contextId } : Message), st)
  let (eid, st) := fresh st
  add_event st { id := eid, actor := agent_name, content := content, timestamp := st.gen }

/-- `ADKHostManager.task_callback` (lines 261-285): the per-event entry
point of the Task Registry. -/
def task_callback (st : HostState) (task : TaskCallbackArg) (agent_name : String) :
    Except String (Task × HostState) :=
  let st := emit_event st task agent_name
  match task with
  | .statusUpdate e =>
    let (current_task, st) := add_or_get_task st task
    let current_task := { current_task with status := e.status }
    let st := attach_message_to_task st e.status.message current_task.id
    let current_task := insert_message_history current_task e.status.message
    .ok (current_task, update_task st current_task)
  | .artifactUpdate e =>
    let (current_task, st) := add_or_get_task st task
    match process_artifact_event st.artifact_chunks current_task e with
    | .error msg => .error msg
    | .ok (current_task, chunks) =>
      .ok (current_task, update_task { st with artifact_chunks := chunks } current_task)
  | .task t =>
    if (st.tasks.find? (fun x => x.id == t.id)).isNone then
      let st := attach_message_to_task st t.status.message t.id
      .ok (t, add_task st t)
    else
      let st := attach_message_to_task st t.status.message t.id
      .ok (t, update_task st t)

/-- Sequential application of callback events, aborting on the first
Python exception. -/
def apply_callbacks (st : HostState) (agent_name : String) :
    List TaskCallbackArg → Except String HostState
  | [] => .ok st
  | e :: es =>
    match task_callback st e agent_name with
    | .error msg => .error msg
    | .ok (_, st) => apply_callbacks st agent_name es

/-!  ## The generic structured-content representation (`google.genai.types`)

Only the attributes the conversion code reads.  The pydantic payloads of
the internal ADK part kinds (`video_metadata`, `executable_code`,
`function_call`) are modelled by their `model_dump()` JSON values, which
is the only way the source consumes them.
-/

structure Blob where
  data : Option (List Nat)
  mime_type : Option String
deriving DecidableEq, Repr

structure FileData where
  file_uri : Option String
  mime_type : Option String
deriving DecidableEq, Repr

structure FunctionResponse where
  name : Option String
  response : Option (List (String × JsonValue))
deriving DecidableEq, Repr

def FunctionResponse.model_dump (fr : FunctionResponse) : JsonValue :=
  .obj [("name", match fr.name with | some n => .str n | none => .null),
        ("response", match fr.response with | some kvs => .obj kvs | none => .null)]

structure GenaiPart where
  text : Option String := none
  inline_data : Option Blob := none
  file_data : Option FileData := none
  video_metadata : Option JsonValue := none
  thought : Option Bool := none
  executable_code : Option JsonValue := none
  function_call : Option JsonValue := none
  function_response : Option FunctionResponse := none
deriving DecidableEq, Repr

/-- `types.Part.from_text`. -/
def genaiFromText (text : String) : GenaiPart := { text := some text }

/-- `types.Part.from_uri`. -/
def genaiFromUri (file_uri : String) (mime_type : Option String) : GenaiPart :=
  { file_data := some { file_uri := some file_uri, mime_type := mime_type } }

/-- `types.Part.from_bytes`. -/
def genaiFromBytes (data : List Nat) (mime_type : Option String) : GenaiPart :=
  { inline_data := some { data := some data, mime_type := mime_type } }

structure GenaiContent where
  role : Option String := none
  parts : Option (List GenaiPart) := none
deriving DecidableEq, Repr

def roleStr : Role → String
  | .user => "user"
  | .agent => "agent"

/-- One iteration of the loop of `ADKHostManager.adk_content_from_message`
(lines 486-510). -/
def message_part_to_genai (p : Part) : GenaiPart :=
  match p with
  | .text t => genaiFromText t
  | .data d => genaiFromText (json_dumps d)
  | .file f =>
    match f with
    | .withUri uri mimeType _ => genaiFromUri uri mimeType
    | .withBytes bytes mimeType _ => genaiFromBytes (utf8Bytes bytes) mimeType

/-- `ADKHostManager.adk_content_from_message` (lines 486-510). -/
def adk_content_from_message (message : Message) : GenaiContent :=
  { parts := some (message.parts.map message_part_to_genai),
    role := some (roleStr message.role) }

/-- Python truthiness of a JSON value (`bool(x)` on the deserialized
value): `None`, `False`, `0`, `""`, `[]` and `{}` are falsy. -/
def jsonTruthy : JsonValue → Bool
  | .null => false
  | .bool b => b
  | .num n => !(n == 0)
  | .str s => !(s == "")
  | .arr xs => !xs.isEmpty
  | .obj fields => !fields.isEmpty

/-- Python iteration over the `result` payload inside a function
response: lists yield their items, strings their characters, dicts their
keys; anything else raises `TypeError`, which the source's `except`
handler catches. -/
def iterJson : JsonValue → Option (List JsonValue)
  | .arr xs => some xs
  | .str s => some (s.toList.map (fun c => .str (String.mk [c])))
  | .obj fields => some (fields.map (fun kv => .str kv.1))
  | _ => none

/-- `ADKHostManager._handle_function_response` (lines 608-681).  Result
elements are wire JSON values here: the `isinstance(p, DataPart)` branch
(lines 640-669), which can only see in-process `DataPart` objects placed
in the response dict by a local tool (and the artifact-service load it
performs), is outside the wire JSON value model and therefore
unrepresentable; every representable element is a string, a dict, or a
non-iterable value handled by the `except` fallback. -/
def handle_function_response (fr : FunctionResponse) : List Part :=
  let result : JsonValue :=
    match fr.response with
    | none => .arr []
    | some kvs =>
      if kvs.isEmpty then .arr []
      else
        let v := (dictGet kvs "result").getD (.arr [])
        if jsonTruthy v then v else .arr []
  match iterJson result with
  | none =>
    -- iterating a non-iterable raises; the except handler logs and
    -- falls back to the function response's own dump
    [.data fr.model_dump]
  | some items =>
    items.map (fun p =>
      match p with
      | .str s => Part.text s
      | .obj fields =>
        if dictGet fields "kind" = some (.str "file") then
          -- `FilePart(**p)`: reconstruct the file part from the dict
          match dictGet fields "file" with
          | some (.obj ff) =>
            match dictGet ff "uri" with
            | some (.str u) =>
              Part.file (.withUri u
                (match dictGet ff "mimeType" with | some (.str m) => some m | _ => none)
                (match dictGet ff "name" with | some (.str n) => some n | _ => none))
            | _ =>
              Part.file (.withBytes
                (match dictGet ff "bytes" with | some (.str b) => b | _ => "")
                (match dictGet ff "mimeType" with | some (.str m) => some m | _ => none)
                (match dictGet ff "name" with | some (.str n) => some n | _ => none))
          | _ => Part.data (.obj fields)
        else Part.data (.obj fields)
      | _ => Part.text "Unknown content type encountered")

/-- One iteration of the loop of `ADKHostManager.adk_content_to_message`
(lines 548-599): the parts contributed by one genai part, or the
`ValueError` of the final `else`. -/
def genai_part_to_parts (part : GenaiPart) : Except String (List Part) :=
  if pyStr part.text then
    -- try to parse as data, else plain text
    match json_loads (part.text.getD "") with
    | some data => .ok [.data data]
    | none => .ok [.text (part.text.getD "")]
  else if part.inline_data.isSome then
    match part.file_data with
    | some fd =>
      .ok [.file (.withBytes
        (b64encode (((part.inline_data.getD { data := none, mime_type := none }).data).getD []))
        fd.mime_type none)]
    | none => .ok []  -- no branch fires: the part is silently dropped
  else if part.file_data.isSome then
    let fd := part.file_data.getD { file_uri := none, mime_type := none }
    .ok [.file (.withUri (if pyStr fd.file_uri then fd.file_uri.getD "" else "") fd.mime_type none)]
  else if part.video_metadata.isSome then
    .ok [.data (part.video_metadata.getD .null)]
  else if pyBool part.thought then
    .ok [.text "thought"]
  else if part.executable_code.isSome then
    .ok [.data (part.executable_code.getD .null)]
  else if part.function_call.isSome then
    .ok [.data (part.function_call.getD .null)]
  else if part.function_response.isSome then
    .ok (handle_function_response (part.function_response.getD { name := none, response := none }))
  else .error "Unexpected content, unknown type"

def convert_parts : List GenaiPart → Except String (List Part)
  | [] => .ok []
  | p :: rest =>
    match genai_part_to_parts p with
    | .error e => .error e
    | .ok xs =>
      match convert_parts rest with
      | .error e => .error e
      | .ok ys => .ok (xs ++ ys)

/-- `ADKHostManager.adk_content_to_message` (lines 512-606); the fresh
`message_id` comes from the counter `g`. -/
def adk_content_to_message (g : Nat) (content : GenaiContent)
    (context_id : Option String) (task_id : Option String) :
    Except String (Message × Nat) :=
  if content.parts = none ∨ content.parts = some [] then
    .ok ({ parts := [],
           role := if content.role == some "user" then .user else .agent,
           contextId := context_id, taskId := task_id,
           messageId := "id_" ++ toString g }, g + 1)
  else
    match convert_parts (content.parts.getD []) with
    | .error e => .error e
    | .ok parts =>
      .ok ({ role := if content.role == some "user" then .user else .agent,
             parts := parts, contextId := context_id, taskId := task_id,
             messageId := "id_" ++ toString g }, g + 1)

/-!  ## Embedding of `RemoteAgentConnections.send_message`
(`remote_agent_connections.py`, lines 35-93)

The transport is modelled by the sequence of decoded responses the
`A2AClient` yields; the supplied callback is the one the host wires in,
`ADKHostManager.task_callback` (`host_manager.py` line 68), operating on
the shared `HostState`.
-/

/-- One decoded streaming response: a `JSONRPCErrorResponse` (with its
optional `error.message`), a terminal `Message` result, or a
`Task`/update-event result. -/
inductive StreamItem where
  | error (message : Option String) : StreamItem
  | message (m : Message) : StreamItem
  | event (e : TaskCallbackArg) : StreamItem
deriving DecidableEq, Repr

/-- The decoded non-streaming response (`SendMessageResponse`): an error,
or a `Message` or `Task` result. -/
inductive SingleResponse where
  | error (message : Option String) : SingleResponse
  | message (m : Message) : SingleResponse
  | task (t : Task) : SingleResponse
deriving DecidableEq, Repr

/-- The dispatch input: which branch of `send_message` runs is selected
by `self.card.capabilities.streaming`. -/
inductive DispatchRequest where
  | streaming (responses : List StreamItem) : DispatchRequest
  | single (response : SingleResponse) : DispatchRequest
deriving DecidableEq, Repr

/-- The `Task | Message | None` return type of `send_message`. -/
inductive SendResult where
  | task (t : Task) : SendResult
  | message (m : Message) : SendResult
  | none : SendResult
deriving DecidableEq, Repr

/-- The streaming loop of `send_message` (lines 41-72).  Note the
duplicated callback invocation of the source (lines 63-64 and 67-68):
each event is applied twice. -/
def stream_loop (st : HostState) (agent_name : String) :
    List StreamItem → Option Task → Except String (SendResult × HostState)
  | [], task =>
    .ok (match task with | some t => .task t | none => .none, st)
  | item :: rest, _task =>
    match item with
    | .error em =>
      let (u, st) := fresh st
      .ok (.message { parts := [.text (if pyStr em then em.getD "" else "")],
                      role := .agent, messageId := u, contextId := none, taskId := none }, st)
    | .message m => .ok (.message m, st)
    | .event e =>
      match task_callback st e agent_name with
      | .error msg => .error msg
      | .ok (_, st) =>
        match task_callback st e agent_name with
        | .error msg => .error msg
        | .ok (t, st) =>
          if (match e with | .statusUpdate s => s.final | _ => false) then
            .ok (.task t, st)
          else stream_loop st agent_name rest (some t)

/-- `RemoteAgentConnections.send_message` (lines 35-93). -/
def send_message (st : HostState) (agent_name : String) :
    DispatchRequest → Except String (SendResult × HostState)
  | .streaming responses => stream_loop st agent_name responses none
  | .single response =>
    match response with
    | .error em =>
      let (u, st) := fresh st
      .ok (.message { parts := [.text (if pyStr em then em.getD "" else "")],
                      role := .agent, messageId := u, contextId := none, taskId := none }, st)
    | .message m => .ok (.message m, st)
    | .task t =>
      match task_callback st (.task t) agent_name with
      | .error msg => .error msg
      | .ok (_, st) => .ok (.task t, st)

/-!  ## Embedding of `ADKHostManager.process_message` (lines 152-250)

The external collaborators are modelled as inputs: `session_found` is
whether `self._session_service.get_session` resolves the context id
(line 179), and `DispatchOutcome` is the behaviour of the
`self._host_runner.run_async` stream (line 207) — either it yields a list
of ADK events and finishes, or it raises after yielding a prefix.  The
`append_event` call on the session service (line 193) only touches the
external session state and is not part of `HostState`.
-/

/-- The fields of an ADK event that `process_message` reads:
`event.actions.state_delta` is modelled as the dict restricted to its
optional-string values (only `"task_id"` is ever read). -/
structure AdkEvent where
  id : String
  author : String
  content : Option GenaiContent
  timestamp : Nat
  state_delta : List (String × Option String)
deriving DecidableEq, Repr

inductive DispatchOutcome where
  /-- `run_async` raised after yielding `processed`. -/
  | raises (processed : List AdkEvent) : DispatchOutcome
  /-- `run_async` completed, yielding `events`. -/
  | completes (events : List AdkEvent) : DispatchOutcome
deriving DecidableEq, Repr

/-- Python `str(x)` on an optional string (`str(None)` is `"None"`). -/
def strOfOpt : Option String → String
  | none => "None"
  | some s => s

/-- `dict.get(k, default)`. -/
def deltaGet (d : List (String × Option String)) (k : String) (default : Option String) : Option String :=
  match dictGet d k with
  | some v => v
  | none => default

/-- Append a message to the first conversation with the given id
(the in-place `conversation.messages.append(...)` of the source). -/
def conv_append_list (cid : String) (m : Message) : List Conversation → List Conversation
  | [] => []
  | c :: cs =>
    if c.conversation_id == cid then { c with messages := c.messages ++ [m] } :: cs
    else c :: conv_append_list cid m cs

def conv_append (st : HostState) (cid : String) (m : Message) : HostState :=
  { st with conversations := conv_append_list cid m st.conversations }

/-- Python `list.remove`: drop the first occurrence, `none` when absent
(a `ValueError`). -/
def remove_first (xs : List String) (a : String) : Option (List String) :=
  match xs with
  | [] => Option.none
  | x :: rest =>
    if x == a then some rest
    else (remove_first rest a).map (fun l => x :: l)

/-- The `async for` loop over `run_async` (lines 207-229): threads the
`task_id` state-delta, converts each event's content, and logs it.  The
second component is `none` when a conversion raised (the exception
propagates out of `process_message`), otherwise the final `task_id`
variable and `final_event`. -/
def run_loop (context_id : Option String) :
    HostState → Option String → Option AdkEvent → List AdkEvent →
    HostState × Option (Option String × Option AdkEvent)
  | st, task_id, final_event, [] => (st, some (task_id, final_event))
  | st, task_id, _, ev :: rest =>
    let task_id := deltaGet ev.state_delta "task_id" task_id
    match adk_content_to_message st.gen (ev.content.getD {}) context_id (some (strOfOpt task_id)) with
    | .error _ => (st, Option.none)
    | .ok (content_message, g) =>
      let st := { st with gen := g }
      let st := add_event st
        { id := ev.id, actor := ev.author, content := content_message, timestamp := ev.timestamp }
      run_loop context_id st task_id (some ev) rest

/-- The cleanup epilogue (lines 248-250): remove the message id from the
pending list once processing is complete. -/
def pending_cleanup (st : HostState) (message_id : String) : HostState × Bool :=
  if message_id ≠ "" ∧ st.pending_message_ids ≠ [] then
    match remove_first st.pending_message_ids message_id with
    | some p => ({ st with pending_message_ids := p }, true)
    | Option.none => (st, false)  -- list.remove raises ValueError
  else (st, true)

/-- The entry phase of `ADKHostManager.process_message` (lines 152-176):
queue the message id as pending, store the message globally and in its
conversation, and log it as a `user` event.  Returns the resolved
`context_id`, whether a conversation was found, and the updated state. -/
def process_prologue (st : HostState) (message : Message) :
    String × Bool × HostState :=
  let message_id := message.messageId
  let (context_id, st) :=
    if pyStr message.contextId then (message.contextId.getD "", st)
    else
      let (u, st) := fresh st
      (u, st)
  let st :=
    if message_id ≠ "" then
      { st with pending_message_ids := st.pending_message_ids ++ [message_id] }
    else st
  let st := { st with messages := st.messages ++ [message] }
  let conversation_found := (get_conversation st (some context_id)).isSome
  let st := if conversation_found then conv_append st context_id message else st
  let (eid, st) := fresh st
  let st := add_event st { id := eid, actor := "user", content := message, timestamp := st.gen }
  (context_id, conversation_found, st)

/-- `ADKHostManager.process_message` (lines 152-250).  The boolean result
is `true` when the call returned normally, `false` when a Python
exception propagated; in either case the first component is the state the
manager is left in. -/
def process_message (st0 : HostState) (message : Message)
    (session_found : Bool) (dispatch : DispatchOutcome) : HostState × Bool :=
  let message_id := message.messageId
  let (context_id, conversation_found, st) := process_prologue st0 message
  if ¬ session_found then
    -- `if session is None: return` — the message is dropped, and the
    -- pending list is left as is
    (st, true)
  else
    match dispatch with
    | .raises processed =>
      -- the prefix of the stream was applied, then run_async raised
      ((run_loop (some context_id) st message.taskId Option.none processed).1, false)
    | .completes events =>
      match run_loop (some context_id) st message.taskId Option.none events with
      | (st, Option.none) => (st, false)  -- adk_content_to_message raised mid-loop
      | (st, some (task_id, final_event)) =>
        match final_event with
        | Option.none => pending_cleanup st message_id
        | some ev =>
          let task_id2 : String :=
            if ev.state_delta ≠ [] then strOfOpt (deltaGet ev.state_delta "task_id" message.taskId)
            else strOfOpt task_id
          match ev.content with
          | Option.none => pending_cleanup st message_id
          | some c =>
            let c := { c with role := some "model" }
            match adk_content_to_message st.gen c (some context_id) (some task_id2) with
            | .error _ => (st, false)
            | .ok (response, g) =>
              let st := { st with gen := g, messages := st.messages ++ [response] }
              let st := if conversation_found then conv_append st context_id response else st
              pending_cleanup st message_id

/-!  ## Supporting lemmas -/

theorem find?_append_of_none {α : Type} (p : α → Bool) (l1 l2 : List α)
    (h : l1.find? p = none) : (l1 ++ l2).find? p = l2.find? p := by
  induction l1 with
  | nil => simp
  | cons a l ih =>
    simp only [List.find?] at h
    rw [List.cons_append]
    simp only [List.find?]
    cases hp : p a with
    | true =>
      simp only [hp] at h
      exact absurd h (by simp)
    | false =>
      simp only [hp] at h ⊢
      exact ih h

theorem find?_update_task_list (t t0 : Task) (l : List Task)
    (h : l.find? (fun x => x.id == t.id) = some t0) :
    (update_task_list t l).find? (fun x => x.id == t.id) = some t := by
  induction l with
  | nil => simp at h
  | cons a l ih =>
    simp only [List.find?] at h
    cases ha : (a.id == t.id) with
    | true =>
      simp [update_task_list, ha, List.find?]
    | false =>
      simp only [ha] at h
      simp only [update_task_list, ha, Bool.false_eq_true, if_false]
      simp only [List.find?, ha]
      exact ih h

theorem update_task_list_append_last (t t1 : Task) (l : List Task)
    (h : l.find? (fun x => x.id == t.id) = none) (hid : t1.id = t.id) :
    update_task_list t (l ++ [t1]) = l ++ [t] := by
  induction l with
  | nil => simp [update_task_list, hid]
  | cons a l ih =>
    simp only [List.find?] at h
    cases hp : (a.id == t.id) with
    | true =>
      simp only [hp] at h
      exact absurd h (by simp)
    | false =>
      simp only [hp] at h
      rw [List.cons_append]
      simp only [update_task_list, hp, Bool.false_eq_true, if_false]
      rw [ih h]
      simp

theorem find?_append_last {α : Type} (p : α → Bool) (l : List α) (x : α)
    (h : l.find? p = none) (hx : p x = true) : (l ++ [x]).find? p = some x := by
  rw [find?_append_of_none p l [x] h, List.find?_cons, hx]

theorem emit_event_frame (st : HostState) (task : TaskCallbackArg) (a : String) :
    (emit_event st task a).tasks = st.tasks ∧
    (emit_event st task a).artifact_chunks = st.artifact_chunks ∧
    (emit_event st task a).task_map = st.task_map ∧
    (emit_event st task a).pending_message_ids = st.pending_message_ids := by
  cases task with
  | statusUpdate e =>
    cases hm : e.status.message <;> simp [emit_event, fresh, add_event, hm]
  | artifactUpdate e =>
    simp [emit_event, fresh, add_event]
  | task t =>
    cases hm : t.status.message <;> by_cases h : t.artifacts = [] <;>
      simp [emit_event, fresh, add_event, hm, h]

theorem attach_message_frame (st : HostState) (m : Option Message) (tid : String) :
    (attach_message_to_task st m tid).tasks = st.tasks ∧
    (attach_message_to_task st m tid).artifact_chunks = st.artifact_chunks ∧
    (attach_message_to_task st m tid).pending_message_ids = st.pending_message_ids := by
  cases m <;> simp [attach_message_to_task]

theorem insert_message_history_id (t : Task) (m : Option Message) :
    (insert_message_history t m).id = t.id := by
  unfold insert_message_history
  cases m with
  | none => rfl
  | some msg =>
    repeat' split
    all_goals rfl

theorem insert_message_history_status (t : Task) (m : Option Message) :
    (insert_message_history t m).status = t.status := by
  unfold insert_message_history
  cases m with
  | none => rfl
  | some msg =>
    repeat' split
    all_goals rfl

theorem status_update_set (t : Task) (s : TaskStatus) (h : t.status = s) :
    ({ t with status := s } : Task) = t := by
  cases t; simp_all

/-- `insert_message_history` is idempotent on a task and its own status
message (message-id deduplication). -/
theorem insert_message_history_idem (t : Task) :
    insert_message_history (insert_message_history t t.status.message) t.status.message
      = insert_message_history t t.status.message := by
  cases hm : t.status.message with
  | none => simp [insert_message_history, hm]
  | some sm =>
    by_cases hid : sm.messageId = ""
    · simp [insert_message_history, hm, hid]
    · by_cases hh : t.history = []
      · have h1 : insert_message_history t (some sm)
            = { t with history := [sm] } := by
          simp [insert_message_history, hm, hid, hh]
        rw [h1]
        simp [insert_message_history, hm, hid]
      · by_cases hc : ∀ x ∈ t.history, ¬ x.messageId = sm.messageId
        · have h1 : insert_message_history t (some sm)
              = { t with history := t.history ++ [sm] } := by
            simp [insert_message_history, hm, hid, hh, hc]
            exact fun x hx heq => absurd heq (hc x hx)
          rw [h1]
          simp [insert_message_history, hm, hid, hh]
        · have h1 : insert_message_history t (some sm) = t := by
            simp [insert_message_history, hm, hid, hh, hc]
          rw [h1]
          simp [insert_message_history, hm, hid, hh, hc]

/-- Applying a `StatusUpdate` via the task callback never raises; the
task it returns carries the update's status, has the update's task id,
and is the first task with that id in the registry afterwards.  Its exact
shape is `insert_message_history` applied to the located (or freshly
created) task with the status overwritten. -/
theorem task_callback_statusUpdate (st : HostState) (e : TaskStatusUpdateEvent)
    (a : String) (h : e.taskId ≠ "") :
    ∃ base st2,
      base.id = e.taskId ∧
      task_callback st (.statusUpdate e) a =
        .ok (insert_message_history { base with status := e.status } e.status.message, st2) ∧
      findTask st2 e.taskId =
        some (insert_message_history { base with status := e.status } e.status.message) ∧
      ((findTask st e.taskId = some base) ∨ findTask st e.taskId = none) := by
  have hemit := emit_event_frame st (.statusUpdate e) a
  set st1 := emit_event st (.statusUpdate e) a with hst1
  have htid : pyStr (some e.taskId) = true := by
    simp [pyStr]; exact h
  cases hfind : findTask st e.taskId with
  | some t0 =>
    have hf1 : st1.tasks.find? (fun x => x.id == e.taskId) = some t0 := by
      rw [hemit.1]; exact hfind
    have hbid : t0.id = e.taskId := by
      have := List.find?_some hf1
      simpa using this
    set tNew := insert_message_history { t0 with status := e.status } e.status.message with htn
    have hnid : tNew.id = e.taskId := by
      rw [htn, insert_message_history_id]; exact hbid
    have hres : task_callback st (.statusUpdate e) a =
        .ok (tNew, update_task (attach_message_to_task st1 e.status.message t0.id) tNew) := by
      simp only [task_callback, ← hst1, add_or_get_task, htid, if_true, Option.getD_some, hf1,
        htn]
    refine ⟨t0, _, hbid, hres, ?_, Or.inl rfl⟩
    have hattach := attach_message_frame st1 e.status.message t0.id
    simp only [findTask, update_task, hattach.1]
    rw [← hnid]
    exact find?_update_task_list tNew t0 st1.tasks (by rw [hnid]; exact hf1)
  | none =>
    have hf1 : st1.tasks.find? (fun x => x.id == e.taskId) = none := by
      rw [hemit.1]; exact hfind
    set t0 : Task :=
      { id := e.taskId, contextId := e.contextId,
        status := { state := .submitted, message := none },
        artifacts := [], history := [] } with ht0
    set tNew := insert_message_history { t0 with status := e.status } e.status.message with htn
    have hnid : tNew.id = e.taskId := by
      rw [htn, insert_message_history_id]
    have hres : task_callback st (.statusUpdate e) a =
        .ok (tNew,
          update_task (attach_message_to_task (add_task st1 t0) e.status.message t0.id) tNew) := by
      simp only [task_callback, ← hst1, add_or_get_task, htid, if_true, Option.getD_some, hf1,
        ht0, htn]
    refine ⟨t0, _, rfl, hres, ?_, Or.inr rfl⟩
    have htasks : (attach_message_to_task (add_task st1 t0) e.status.message t0.id).tasks
        = st1.tasks ++ [t0] := by
      rw [(attach_message_frame _ _ _).1]; rfl
    simp only [findTask, update_task, htasks]
    rw [update_task_list_append_last tNew t0 st1.tasks (by rw [hnid]; exact hf1) (by rw [hnid])]
    exact find?_append_last _ _ _ hf1 (by simp [hnid])

theorem apply_callbacks_cons (st : HostState) (a : String) (e : TaskCallbackArg)
    (es : List TaskCallbackArg) (t : Task) (st2 : HostState)
    (h : task_callback st e a = .ok (t, st2)) :
    apply_callbacks st a (e :: es) = apply_callbacks st2 a es := by
  simp only [apply_callbacks, h]

/-!  ## Claim C1 -/

/-- C1 (amended): the Task Registry has no terminal-state guard: the
recorded state of a task always equals the status of the most recently
applied StatusUpdate for its id (last writer wins).  Hence for a sequence
of non-terminal states followed by exactly one terminal state, with no
further updates, the final recorded state is that terminal state — but a
later StatusUpdate carrying a non-terminal state is applied as well and
overwrites the terminal state. -/
theorem C1_status_last_writer_wins (st : HostState) (agent_name tid : String)
    (h : tid ≠ "") (events : List TaskStatusUpdateEvent)
    (hids : ∀ e ∈ events, e.taskId = tid)
    (last : TaskStatusUpdateEvent) (hlast : events.getLast? = some last) :
    ∃ st2 t,
      apply_callbacks st agent_name (events.map .statusUpdate) = .ok st2 ∧
      findTask st2 tid = some t ∧ t.status = last.status := by
  induction events generalizing st with
  | nil => simp at hlast
  | cons e rest ih =>
    have hetid : e.taskId = tid := hids e (List.mem_cons_self e rest)
    obtain ⟨base, st2, hbid, hres, hfindafter, _⟩ :=
      task_callback_statusUpdate st e agent_name (by rw [hetid]; exact h)
    rw [List.map_cons]
    cases rest with
    | nil =>
      have hlaste : last = e := by simpa using hlast.symm
      refine ⟨st2, insert_message_history { base with status := e.status } e.status.message,
        ?_, ?_, ?_⟩
      · rw [apply_callbacks_cons st agent_name _ _ _ st2 hres]
        simp [apply_callbacks]
      · rw [← hetid]; exact hfindafter
      · rw [insert_message_history_status, hlaste]
    | cons e2 rest2 =>
      have hlast2 : (e2 :: rest2).getLast? = some last := by
        rw [← hlast, List.getLast?_cons_cons]
      obtain ⟨st3, t, happ, hfind3, hstat⟩ :=
        ih st2 (fun x hx => hids x (List.mem_cons_of_mem _ hx)) hlast2
      refine ⟨st3, t, ?_, hfind3, hstat⟩
      rw [apply_callbacks_cons st agent_name _ _ _ st2 hres]
      exact happ

def c1_ev_completed : TaskStatusUpdateEvent :=
  { taskId := "T1", contextId := some "C1",
    status := { state := .completed, message := none }, final := true }

def c1_ev_working : TaskStatusUpdateEvent :=
  { taskId := "T1", contextId := some "C1",
    status := { state := .working, message := none }, final := false }

/-- C1 counterexample: after a StatusUpdate recording the terminal state
`completed` for task T1, a further StatusUpdate with the non-terminal
state `working` IS accepted and changes the recorded state back to
`working` — refuting, at this concrete input, the claim that the recorded
state never reverts from terminal to non-terminal and that no later
differing update is accepted. -/
theorem C1_counterexample :
    (match apply_callbacks emptyState "agent"
        [.statusUpdate c1_ev_completed, .statusUpdate c1_ev_working] with
     | .ok st2 => (findTask st2 "T1").map (fun t => t.status.state)
     | .error _ => none) = some TaskState.working ∧
    TaskState.working ≠ TaskState.completed := by
  exact ⟨by decide, by decide⟩

/-- C1 witness: the amended claim at a concrete input — `working` then
`completed` ends with recorded state `completed`. -/
theorem C1_witness :
    ∃ st2 t,
      apply_callbacks emptyState "agent"
        ([c1_ev_working, c1_ev_completed].map .statusUpdate) = .ok st2 ∧
      findTask st2 "T1" = some t ∧ t.status = c1_ev_completed.status :=
  C1_status_last_writer_wins emptyState "agent" "T1" (by decide)
    [c1_ev_working, c1_ev_completed] (by decide) c1_ev_completed (by decide)

/-!  ## Claim C4 -/

/-- C4: applying the same StatusUpdate event (identical task id, status
value and attached message) twice is idempotent: the second application
leaves the task's history length and recorded status unchanged. -/
theorem C4_status_update_idempotent (st : HostState) (agent_name : String)
    (e : TaskStatusUpdateEvent) (h : e.taskId ≠ "") :
    ∃ t1 st1 t2 st2,
      task_callback st (.statusUpdate e) agent_name = .ok (t1, st1) ∧
      task_callback st1 (.statusUpdate e) agent_name = .ok (t2, st2) ∧
      t2.history.length = t1.history.length ∧ t2.status = t1.status := by
  obtain ⟨b1, st1, hb1, hres1, hfind1, _⟩ := task_callback_statusUpdate st e agent_name h
  obtain ⟨b2, st2, hb2, hres2, hfind2, hdisj⟩ := task_callback_statusUpdate st1 e agent_name h
  set T1 := insert_message_history { b1 with status := e.status } e.status.message with hT1
  set T2 := insert_message_history { b2 with status := e.status } e.status.message with hT2
  have hb2T1 : b2 = T1 := by
    cases hdisj with
    | inl hl => rw [hfind1] at hl; exact (Option.some.inj hl).symm
    | inr hr => rw [hfind1] at hr; cases hr
  have hT1status : T1.status = e.status := by
    rw [hT1, insert_message_history_status]
  have hT2T1 : T2 = T1 := by
    rw [hT2, hb2T1, status_update_set T1 e.status hT1status]
    have hidem := insert_message_history_idem ({ b1 with status := e.status } : Task)
    simpa using hidem
  exact ⟨T1, st1, T2, st2, hres1, hres2, by rw [hT2T1], by rw [hT2T1]⟩

def c4_msg : Message :=
  { messageId := "m1", role := .agent, parts := [.text "hi"],
    contextId := some "C1", taskId := some "T1" }

def c4_event : TaskStatusUpdateEvent :=
  { taskId := "T1", contextId := some "C1",
    status := { state := .working, message := some c4_msg }, final := false }

/-- C4 witness: the idempotence theorem applied at a concrete event with
an attached status message. -/
theorem C4_witness :
    ∃ t1 st1 t2 st2,
      task_callback emptyState (.statusUpdate c4_event) "agent" = .ok (t1, st1) ∧
      task_callback st1 (.statusUpdate c4_event) "agent" = .ok (t2, st2) ∧
      t2.history.length = t1.history.length ∧ t2.status = t1.status :=
  C4_status_update_idempotent emptyState "agent" c4_event (by decide)

/-!  ## Claims C3 and C8 -/

theorem dictGet_set_self {α : Type} (d : List (String × α)) (k : String) (v : α) :
    dictGet (dictSet d k v) k = some v := by
  induction d with
  | nil => simp [dictGet, dictSet, List.find?]
  | cons kv rest ih =>
    obtain ⟨k2, v2⟩ := kv
    by_cases hk : (k2 == k) = true
    · simp [dictGet, dictSet, hk, List.find?]
    · simp only [dictSet, hk, Bool.false_eq_true, if_false]
      simp only [dictGet, List.find?, hk] at ih ⊢
      exact ih

/-- C3: for any artifact id and any task with no finished artifacts and an
empty scratch slot, the three fragments `[append=false, last_chunk=false]`,
`[append=true, last_chunk=false]`, `[append=true, last_chunk=true]`
assemble into exactly one finished artifact whose parts are the
concatenation of the three fragments' parts in arrival order, leaving the
artifact id's scratch slot without fragments. -/
theorem C3_chunked_artifact_reassembly (chunks : List (String × List Artifact))
    (task : Task) (a1 a2 a3 : Artifact) (aid : String) (cid : Option String) (tid : String)
    (h1 : a1.artifactId = aid) (h2 : a2.artifactId = aid) (h3 : a3.artifactId = aid)
    (htask : task.artifacts = [])
    (hslot : dictGet chunks aid = none) :
    ∃ t3 c3,
      (process_artifact_event chunks task
          { taskId := tid, contextId := cid, artifact := a1,
            append := some false, lastChunk := some false }).bind
        (fun r1 => (process_artifact_event r1.2 r1.1
          { taskId := tid, contextId := cid, artifact := a2,
            append := some true, lastChunk := some false }).bind
        (fun r2 => process_artifact_event r2.2 r2.1
          { taskId := tid, contextId := cid, artifact := a3,
            append := some true, lastChunk := some true })) = .ok (t3, c3) ∧
      t3.artifacts = [{ a1 with parts := a1.parts ++ a2.parts ++ a3.parts }] ∧
      dictGet c3 aid = some [] := by
  have s1 : process_artifact_event chunks task
      { taskId := tid, contextId := cid, artifact := a1,
        append := some false, lastChunk := some false }
      = .ok (task, dictSet chunks aid [a1]) := by
    simp [process_artifact_event, pyBool, h1, hslot]
  have s2 : process_artifact_event (dictSet chunks aid [a1]) task
      { taskId := tid, contextId := cid, artifact := a2,
        append := some true, lastChunk := some false }
      = .ok (task, dictSet (dictSet chunks aid [a1]) aid
          [{ a1 with parts := a1.parts ++ a2.parts }]) := by
    have hg : dictGet (dictSet chunks aid [a1]) aid = some [a1] :=
      dictGet_set_self chunks aid [a1]
    simp [process_artifact_event, pyBool, h2, hg, List.getLast_singleton,
      List.dropLast_single]
  have s3 : process_artifact_event
      (dictSet (dictSet chunks aid [a1]) aid [{ a1 with parts := a1.parts ++ a2.parts }]) task
      { taskId := tid, contextId := cid, artifact := a3,
        append := some true, lastChunk := some true }
      = .ok ({ task with artifacts := [{ a1 with parts := a1.parts ++ a2.parts ++ a3.parts }] },
          dictSet (dictSet (dictSet chunks aid [a1]) aid
            [{ a1 with parts := a1.parts ++ a2.parts }]) aid []) := by
    have hg : dictGet (dictSet (dictSet chunks aid [a1]) aid
        [{ a1 with parts := a1.parts ++ a2.parts }]) aid
        = some [{ a1 with parts := a1.parts ++ a2.parts }] :=
      dictGet_set_self _ aid _
    simp [process_artifact_event, pyBool, h3, hg, htask, List.append_assoc,
      List.getLast_singleton, List.dropLast_single]
  refine ⟨{ task with artifacts := [{ a1 with parts := a1.parts ++ a2.parts ++ a3.parts }] },
    dictSet (dictSet (dictSet chunks aid [a1]) aid
      [{ a1 with parts := a1.parts ++ a2.parts }]) aid [],
    ?_, ?_, ?_⟩
  · rw [s1]
    simp only [Except.bind]
    rw [s2]
    simp only [Except.bind]
    rw [s3]
  · simp
  · exact dictGet_set_self _ aid []

def c3_a1 : Artifact := { artifactId := "A1", name := some "doc", parts := [.text "p1"] }
def c3_a2 : Artifact := { artifactId := "A1", name := none, parts := [.text "p2", .text "p2b"] }
def c3_a3 : Artifact := { artifactId := "A1", name := none, parts := [.text "p3"] }
def c3_task : Task :=
  { id := "T1", contextId := some "C1",
    status := { state := .working, message := none }, artifacts := [], history := [] }

/-- C3 witness: the reassembly theorem at concrete fragments. -/
theorem C3_witness :
    ∃ t3 c3,
      (process_artifact_event [] c3_task
          { taskId := "T1", contextId := some "C1", artifact := c3_a1,
            append := some false, lastChunk := some false }).bind
        (fun r1 => (process_artifact_event r1.2 r1.1
          { taskId := "T1", contextId := some "C1", artifact := c3_a2,
            append := some true, lastChunk := some false }).bind
        (fun r2 => process_artifact_event r2.2 r2.1
          { taskId := "T1", contextId := some "C1", artifact := c3_a3,
            append := some true, lastChunk := some true })) = .ok (t3, c3) ∧
      t3.artifacts = [{ c3_a1 with parts := c3_a1.parts ++ c3_a2.parts ++ c3_a3.parts }] ∧
      dictGet c3 "A1" = some [] :=
  C3_chunked_artifact_reassembly [] c3_task c3_a1 c3_a2 c3_a3 "A1" (some "C1") "T1"
    (by decide) (by decide) (by decide) (by decide) (by decide)

/-- C8: an `append=true` chunk arriving when the scratch buffer holds no
prior fragment for its artifact id faults — the unguarded
`self._artifact_chunks[artifact.artifactId][-1]` raises a `KeyError`
(missing key) or an `IndexError` (empty slot): the chunk is not silently
dropped, and no updated task is produced, so the task's finished artifact
list is not extended on this path. -/
theorem C8_append_without_fragment_faults (chunks : List (String × List Artifact))
    (task : Task) (e : TaskArtifactUpdateEvent)
    (happend : e.append = some true)
    (hslot : dictGet chunks e.artifact.artifactId = none ∨
             dictGet chunks e.artifact.artifactId = some []) :
    (∃ msg, process_artifact_event chunks task e = .error msg) ∧
    (∀ t2 c2, process_artifact_event chunks task e ≠ .ok (t2, c2)) := by
  have herr : ∃ msg, process_artifact_event chunks task e = .error msg := by
    cases hslot with
    | inl hl => exact ⟨"KeyError", by simp [process_artifact_event, happend, pyBool, hl]⟩
    | inr hr => exact ⟨"IndexError", by simp [process_artifact_event, happend, pyBool, hr]⟩
  refine ⟨herr, ?_⟩
  obtain ⟨msg, hmsg⟩ := herr
  intro t2 c2 hok
  rw [hmsg] at hok
  cases hok

/-- C8 witness: the fault theorem at a concrete orphan append chunk. -/
theorem C8_witness :
    (∃ msg, process_artifact_event [] c3_task
      { taskId := "T1", contextId := some "C1", artifact := c3_a2,
        append := some true, lastChunk := some false } = .error msg) ∧
    (∀ t2 c2, process_artifact_event [] c3_task
      { taskId := "T1", contextId := some "C1", artifact := c3_a2,
        append := some true, lastChunk := some false } ≠ .ok (t2, c2)) :=
  C8_append_without_fragment_faults [] c3_task _ (by decide) (Or.inl (by decide))

/-!  ## Claims C5 and C10 -/

theorem get_conversation_some_pyStr (st : HostState) (cid : Option String)
    (conv : Conversation) (h : get_conversation st cid = some conv) :
    pyStr cid = true := by
  by_cases hp : pyStr cid = true
  · exact hp
  · rw [get_conversation, if_neg (by simp [hp])] at h
    cases h

/-- C5: if the conversation of the message's `context_id` has a most
recent message bound to a task in an open state (`submitted`, `working`
or `input_required`), `sanitize_message` returns the message with that
task id set; if that task is in a terminal state (`completed`, `canceled`,
`failed` — or the defensive `unknown`), or the conversation is absent or
empty, or its last message carries no task id, the message is returned
with its `task_id` untouched. -/
theorem C5_sanitize_propagates_open_task (st : HostState) (m : Message) :
    (∀ cid conversation lastm tid t,
      m.contextId = some cid → cid ≠ "" →
      get_conversation st m.contextId = some conversation →
      conversation.messages.getLast? = some lastm →
      lastm.taskId = some tid → tid ≠ "" →
      findTask st tid = some t →
      ((t.status.state = .submitted ∨ t.status.state = .working ∨
          t.status.state = .input_required) →
        sanitize_message st m = { m with taskId := some tid }) ∧
      ((t.status.state = .completed ∨ t.status.state = .canceled ∨
          t.status.state = .failed ∨ t.status.state = .unknown) →
        sanitize_message st m = m)) ∧
    (get_conversation st m.contextId = none → sanitize_message st m = m) ∧
    (∀ conversation, get_conversation st m.contextId = some conversation →
      conversation.messages = [] → sanitize_message st m = m) ∧
    (∀ conversation lastm, get_conversation st m.contextId = some conversation →
      conversation.messages.getLast? = some lastm → lastm.taskId = none →
      sanitize_message st m = m) := by
  refine ⟨?_, ?_, ?_, ?_⟩
  · intro cid conversation lastm tid t hcid hcidne hconv hlastm htid htidne hfind
    have hp : pyStr m.contextId = true := get_conversation_some_pyStr st m.contextId _ hconv
    constructor
    · intro hopen
      have hso : task_still_open (findTask st tid) = true := by
        rw [hfind]
        rcases hopen with h | h | h <;> simp [task_still_open, h]
      simp [sanitize_message, hp, hconv, hlastm, htid, htidne, hso]
    · intro hterm
      have hso : task_still_open (findTask st tid) = false := by
        rw [hfind]
        rcases hterm with h | h | h | h <;> simp [task_still_open, h]
      simp [sanitize_message, hp, hconv, hlastm, htid, hso]
  · intro hnone
    by_cases hp : pyStr m.contextId = true
    · simp [sanitize_message, hp, hnone]
    · simp [sanitize_message, hp]
  · intro conversation hconv hempty
    have hp : pyStr m.contextId = true := get_conversation_some_pyStr st m.contextId _ hconv
    simp [sanitize_message, hp, hconv, hempty]
  · intro conversation lastm hconv hlastm htidnone
    have hp : pyStr m.contextId = true := get_conversation_some_pyStr st m.contextId _ hconv
    simp [sanitize_message, hp, hconv, hlastm, htidnone]

def c5_last_message : Message :=
  { messageId := "m0", role := .user, parts := [], contextId := some "C1", taskId := some "T9" }

def c5_conversation : Conversation :=
  { conversation_id := "C1", is_active := true, messages := [c5_last_message] }

def c5_task_working : Task :=
  { id := "T9", contextId := some "C1",
    status := { state := .working, message := none }, artifacts := [], history := [] }

def c5_state : HostState :=
  { emptyState with conversations := [c5_conversation], tasks := [c5_task_working] }

def c5_new_message : Message :=
  { messageId := "m9", role := .user, parts := [.text "next"],
    contextId := some "C1", taskId := none }

/-- C5 witness: the sanitize theorem at a concrete conversation whose
last message is bound to a `working` task. -/
theorem C5_witness :
    sanitize_message c5_state c5_new_message = { c5_new_message with taskId := some "T9" } :=
  ((C5_sanitize_propagates_open_task c5_state c5_new_message).1
    "C1" c5_conversation c5_last_message "T9" c5_task_working
    rfl (by decide) (by decide) (by decide) rfl (by decide) (by decide)).1
    (Or.inr (Or.inl rfl))

/-- C10: `sanitize_message` changes at most the `task_id` of its input:
message id, role, parts and context id always come back unchanged, and
the task id either is unchanged or was propagated from an open task bound
to the conversation's most recent message. -/
theorem C10_sanitize_frame (st : HostState) (m : Message) :
    (sanitize_message st m).messageId = m.messageId ∧
    (sanitize_message st m).role = m.role ∧
    (sanitize_message st m).parts = m.parts ∧
    (sanitize_message st m).contextId = m.contextId ∧
    ((sanitize_message st m).taskId = m.taskId ∨
      (∃ conversation lastm tid,
        get_conversation st m.contextId = some conversation ∧
        conversation.messages.getLast? = some lastm ∧
        lastm.taskId = some tid ∧
        task_still_open (findTask st tid) = true ∧
        (sanitize_message st m).taskId = some tid)) := by
  by_cases hp : pyStr m.contextId = true
  · cases hconv : get_conversation st m.contextId with
    | none =>
      have hres : sanitize_message st m = m := by simp [sanitize_message, hp, hconv]
      rw [hres]
      exact ⟨rfl, rfl, rfl, rfl, Or.inl rfl⟩
    | some conversation =>
      cases hlastm : conversation.messages.getLast? with
      | none =>
        have hres : sanitize_message st m = m := by
          simp [sanitize_message, hp, hconv, hlastm]
        rw [hres]
        exact ⟨rfl, rfl, rfl, rfl, Or.inl rfl⟩
      | some lastm =>
        cases htid : lastm.taskId with
        | none =>
          have hres : sanitize_message st m = m := by
            simp [sanitize_message, hp, hconv, hlastm, htid]
          rw [hres]
          exact ⟨rfl, rfl, rfl, rfl, Or.inl rfl⟩
        | some tid =>
          by_cases hcond : tid ≠ "" ∧ task_still_open (findTask st tid)
          · have hres : sanitize_message st m = { m with taskId := some tid } := by
              simp [sanitize_message, hp, hconv, hlastm, htid, hcond.1, hcond.2]
            rw [hres]
            refine ⟨rfl, rfl, rfl, rfl, Or.inr ⟨conversation, lastm, tid,
              rfl, hlastm, htid, ?_, rfl⟩⟩
            have := hcond.2
            simpa using this
          · have hres : sanitize_message st m = m := by
              simp only [sanitize_message, hp, if_true, hconv, hlastm, htid]
              rw [if_neg hcond]
            rw [hres]
            exact ⟨rfl, rfl, rfl, rfl, Or.inl rfl⟩
  · have hres : sanitize_message st m = m := by simp [sanitize_message, hp]
    rw [hres]
    exact ⟨rfl, rfl, rfl, rfl, Or.inl rfl⟩

/-!  ## Claim C6 -/

def c6_msg : Message :=
  { messageId := "m1", role := .agent,
    parts := [.file (.withBytes "aGk=" (some "text/plain") none)],
    contextId := none, taskId := none }

/-- C6 counterexample: a message holding one file-by-bytes part does not
survive the round trip — `adk_content_from_message` encodes it as a genai
part with `inline_data` but no `file_data`, and the reverse conversion's
inline branch only emits a part when `file_data` is also present, so the
part is dropped and the resulting part list is empty. -/
theorem C6_counterexample :
    adk_content_to_message 0 (adk_content_from_message c6_msg) c6_msg.contextId c6_msg.taskId
      = .ok ({ messageId := "id_0", role := .agent, parts := [],
               contextId := none, taskId := none }, 1) ∧
    ([] : List Part) ≠ c6_msg.parts :=
  ⟨rfl, by decide⟩

/-- The part variants that survive the round trip: nonempty text that
does not parse as JSON, structured data whose payload survives
`dumps`/`loads`, and file-by-uri parts without a name.  File-by-bytes
parts never survive. -/
def roundTrippablePart : Part → Bool
  | .text t => !(t == "") && (json_loads t).isNone
  | .data d => !(json_dumps d == "") && (json_loads (json_dumps d) == some d)
  | .file (.withUri _ _ name) => name.isNone
  | .file (.withBytes _ _ _) => false

theorem genai_round_trip_part (p : Part) (h : roundTrippablePart p = true) :
    genai_part_to_parts (message_part_to_genai p) = .ok [p] := by
  cases p with
  | text t =>
    rw [roundTrippablePart, Bool.and_eq_true] at h
    obtain ⟨h1, h2⟩ := h
    have hne : ¬ t = "" := by simpa using h1
    have hload : json_loads t = none := by
      rw [← Option.isNone_iff_eq_none]; exact h2
    simp [message_part_to_genai, genaiFromText, genai_part_to_parts, pyStr, hne, hload]
  | data d =>
    rw [roundTrippablePart, Bool.and_eq_true] at h
    obtain ⟨h1, h2⟩ := h
    have hne : ¬ json_dumps d = "" := by simpa using h1
    have hload : json_loads (json_dumps d) = some d := eq_of_beq h2
    simp [message_part_to_genai, genaiFromText, genai_part_to_parts, pyStr, hne, hload]
  | file f =>
    cases f with
    | withUri uri mt name =>
      have hname : name = none := by
        rw [roundTrippablePart, Option.isNone_iff_eq_none] at h
        exact h
      subst hname
      by_cases hu : uri = ""
      · subst hu
        simp [message_part_to_genai, genaiFromUri, genai_part_to_parts, pyStr]
      · simp [message_part_to_genai, genaiFromUri, genai_part_to_parts, pyStr, hu]
    | withBytes bytes mt name =>
      rw [roundTrippablePart] at h
      cases h

theorem convert_parts_map (ps : List Part) (h : ∀ p ∈ ps, roundTrippablePart p = true) :
    convert_parts (ps.map message_part_to_genai) = .ok ps := by
  induction ps with
  | nil => rfl
  | cons p rest ih =>
    rw [List.map_cons]
    simp only [convert_parts, genai_round_trip_part p (h p (List.mem_cons_self p rest)),
      ih (fun x hx => h x (List.mem_cons_of_mem _ hx))]
    rfl

/-- C6 (amended): converting a Message to the generic content
representation and back reproduces the Part sequence and the role for the
text, structured-data, and file-by-uri variants — provided each text part
is nonempty and not parseable as JSON, each data payload survives a
`dumps`/`loads` round trip, and each file-by-uri part carries no name.
File-by-bytes parts are NOT reproduced: the reverse conversion drops them
(its inline-data branch requires a `file_data` attribute that
`from_bytes` never sets), and the claim fails for them. -/
theorem C6_round_trip_amended (m : Message) (g : Nat)
    (hsafe : ∀ p ∈ m.parts, roundTrippablePart p = true) :
    ∃ m2 g2,
      adk_content_to_message g (adk_content_from_message m) m.contextId m.taskId
        = .ok (m2, g2) ∧
      m2.parts = m.parts ∧ m2.role = m.role := by
  have hrole : (if (some (roleStr m.role) : Option String) == some "user"
      then Role.user else Role.agent) = m.role := by
    cases m.role <;> simp [roleStr]
  cases hps : m.parts with
  | nil =>
    refine ⟨{ messageId := "id_" ++ toString g,
              role := if (some (roleStr m.role) : Option String) == some "user"
                then .user else .agent,
              parts := [], contextId := m.contextId, taskId := m.taskId }, g + 1,
      ?_, by simp [hps], hrole⟩
    rw [adk_content_to_message, if_pos (by simp [adk_content_from_message, hps])]
    simp [adk_content_from_message]
  | cons p rest =>
    have hconv : convert_parts (m.parts.map message_part_to_genai) = .ok m.parts :=
      convert_parts_map m.parts hsafe
    refine ⟨{ messageId := "id_" ++ toString g,
              role := if (some (roleStr m.role) : Option String) == some "user"
                then .user else .agent,
              parts := m.parts, contextId := m.contextId, taskId := m.taskId }, g + 1,
      ?_, hps, hrole⟩
    rw [adk_content_to_message, if_neg (by simp [adk_content_from_message, hps])]
    simp only [adk_content_from_message, Option.getD_some]
    rw [hconv]

def c6_good : Message :=
  { messageId := "m2", role := .user,
    parts := [.text "hello", .data (.obj [("a", .num 1)]),
      .file (.withUri "http://host/file" (some "text/plain") none)],
    contextId := some "C1", taskId := none }

/-- C6 witness: the amended round-trip theorem at a message holding one
part of each surviving variant. -/
theorem C6_witness :
    ∃ m2 g2,
      adk_content_to_message 0 (adk_content_from_message c6_good) c6_good.contextId
        c6_good.taskId = .ok (m2, g2) ∧
      m2.parts = c6_good.parts ∧ m2.role = c6_good.role :=
  C6_round_trip_amended c6_good 0 (by decide)

/-!  ## Claim C7 -/

/-- C7: on both the streaming and the non-streaming path, a
transport-level `JSONRPCErrorResponse` makes `send_message` return an
ordinary agent `Message` whose single text part holds the error's message
(the empty string when the error carries none): the call does not raise
and no distinct error payload type is returned, so a caller cannot
distinguish this from a normal agent response. -/
theorem C7_error_becomes_agent_message (st : HostState) (agent_name : String)
    (em : Option String) (rest : List StreamItem) :
    send_message st agent_name (.streaming (.error em :: rest))
      = .ok (.message { messageId := "id_" ++ toString st.gen
                        role := .agent
                        parts := [.text (if pyStr em then em.getD "" else "")]
                        contextId := none
                        taskId := none }, { st with gen := st.gen + 1 }) ∧
    send_message st agent_name (.single (.error em))
      = .ok (.message { messageId := "id_" ++ toString st.gen
                        role := .agent
                        parts := [.text (if pyStr em then em.getD "" else "")]
                        contextId := none
                        taskId := none }, { st with gen := st.gen + 1 }) := by
  constructor <;> simp [send_message, stream_loop, fresh]

/-!  ## Claim C2 -/

def c2_artifact : Artifact :=
  { artifactId := "Art1", name := none, parts := [.text "partial"] }

def c2_ev1 : TaskStatusUpdateEvent :=
  { taskId := "T1", contextId := some "C1",
    status := { state := .working, message := none }, final := false }

def c2_ev2 : TaskArtifactUpdateEvent :=
  { taskId := "T1", contextId := some "C1",
    artifact := c2_artifact, append := some false, lastChunk := some true }

def c2_ev3 : TaskStatusUpdateEvent :=
  { taskId := "T1", contextId := some "C1",
    status := { state := .completed, message := none }, final := true }

def c2_stream : List StreamItem :=
  [.event (.statusUpdate c2_ev1), .event (.artifactUpdate c2_ev2),
   .event (.statusUpdate c2_ev3)]

def c2_view : Option (Nat × List (String × TaskState × List Artifact)) :=
  match send_message emptyState "RemoteAgent" (.streaming c2_stream) with
  | .ok (_, st2) =>
    some (st2.tasks.length, st2.tasks.map (fun t => (t.id, t.status.state, t.artifacts)))
  | .error _ => none

/-- C2 (evaluation of the code at the failing input): dispatching the
scenario stream from an empty registry leaves exactly one task T1 in
state `completed`, but T1's artifact list holds Art1 TWICE — the
streaming loop of `RemoteAgentConnections.send_message` invokes the task
callback in two identical, consecutive guarded statements (source lines
63-64 and 67-68), so every streamed update event is applied to the Task
Registry twice, not exactly once, and the artifact-carrying event's
payload is appended twice. -/
theorem C2_duplicate_application_eval :
    c2_view = some (1, [("T1", TaskState.completed, [c2_artifact, c2_artifact])]) ∧
    ([c2_artifact, c2_artifact] : List Artifact).length ≠ 1 :=
  ⟨rfl, by decide⟩

/-!  ## Claim C9 -/

theorem run_loop_pending (cid : Option String) (evs : List AdkEvent) :
    ∀ (st : HostState) (tid : Option String) (fin : Option AdkEvent),
      (run_loop cid st tid fin evs).1.pending_message_ids = st.pending_message_ids := by
  induction evs with
  | nil => intro st tid fin; rfl
  | cons ev rest ih =>
    intro st tid fin
    simp only [run_loop]
    cases hc : adk_content_to_message st.gen (ev.content.getD {}) cid
        (some (strOfOpt (deltaGet ev.state_delta "task_id" tid))) with
    | error e => rfl
    | ok pr =>
      obtain ⟨cm, g⟩ := pr
      rw [ih]
      rfl

theorem remove_first_append_self (l : List String) (a : String) :
    ∃ l2, remove_first (l ++ [a]) a = some l2 ∧ l2.count a = l.count a := by
  induction l with
  | nil => exact ⟨[], by simp [remove_first], by simp⟩
  | cons x rest ih =>
    by_cases hx : (x == a) = true
    · refine ⟨rest ++ [a], ?_, ?_⟩
      · simp [remove_first, hx]
      · have hxa : x = a := eq_of_beq hx
        subst hxa
        simp [List.count_append, List.count_cons]
    · obtain ⟨l2, h1, h2⟩ := ih
      refine ⟨x :: l2, ?_, ?_⟩
      · rw [List.cons_append]
        simp [remove_first, hx, h1]
      · have hxa : ¬ x = a := by simpa using hx
        simp [List.count_cons, hxa, h2]

theorem pending_cleanup_append (stx : HostState) (mid : String) (h : mid ≠ "")
    (l : List String) (hp : stx.pending_message_ids = l ++ [mid]) :
    ∃ l2, pending_cleanup stx mid = ({ stx with pending_message_ids := l2 }, true) ∧
      l2.count mid = l.count mid := by
  obtain ⟨l2, h1, h2⟩ := remove_first_append_self l mid
  refine ⟨l2, ?_, h2⟩
  rw [pending_cleanup, if_pos ⟨h, by rw [hp]; simp⟩, hp, h1]

theorem process_prologue_pending (st : HostState) (m : Message) (h : m.messageId ≠ "") :
    (process_prologue st m).2.2.pending_message_ids
      = st.pending_message_ids ++ [m.messageId] := by
  by_cases hc : pyStr m.contextId = true <;>
    simp only [process_prologue, hc, Bool.false_eq_true, if_true, if_false, h,
      ne_eq, not_false_eq_true, fresh, add_event, conv_append] <;>
    split <;> rfl

/-- C9: `process_message` appends the inbound message id to the pending
list before dispatch; if the ADK dispatch raises before completing (or a
content conversion raises mid-stream), the id is still in the pending
list when the exception propagates; if the call completes normally after
a resolved session, the id is removed — the pending count returns to its
pre-call value.  On the drop path (no session resolves) the dispatch
never runs and the id stays pending. -/
theorem C9_pending_message_semantics (st : HostState) (m : Message)
    (session_found : Bool) (dispatch : DispatchOutcome)
    (h : m.messageId ≠ "") :
    ((process_message st m session_found dispatch).2 = false →
      m.messageId ∈ (process_message st m session_found dispatch).1.pending_message_ids) ∧
    (session_found = false →
      m.messageId ∈ (process_message st m session_found dispatch).1.pending_message_ids) ∧
    ((process_message st m session_found dispatch).2 = true → session_found = true →
      (process_message st m session_found dispatch).1.pending_message_ids.count m.messageId
        = st.pending_message_ids.count m.messageId) := by
  have hpro := process_prologue_pending st m h
  rcases hpe : process_prologue st m with ⟨cid, cf, st1⟩
  rw [hpe] at hpro
  simp only at hpro
  have hmem : m.messageId ∈ st1.pending_message_ids := by
    rw [hpro]; exact List.mem_append_right _ (by simp)
  cases session_found with
  | false =>
    have hred : process_message st m false dispatch = (st1, true) := by
      simp only [process_message]; rw [hpe]; rfl
    rw [hred]
    refine ⟨?_, ?_, ?_⟩
    · intro hf; simp at hf
    · intro _; exact hmem
    · intro _ hsf; simp at hsf
  | true =>
    cases dispatch with
    | raises processed =>
      have hred : process_message st m true (.raises processed)
          = ((run_loop (some cid) st1 m.taskId Option.none processed).1, false) := by
        simp only [process_message]; rw [hpe]; rfl
      rw [hred]
      refine ⟨?_, ?_, ?_⟩
      · intro _
        rw [run_loop_pending]
        exact hmem
      · intro hsf; simp at hsf
      · intro ht; simp at ht
    | completes evs =>
      have hrlp := run_loop_pending (some cid) evs st1 m.taskId Option.none
      rcases hrl : run_loop (some cid) st1 m.taskId Option.none evs with ⟨st7, res⟩
      rw [hrl] at hrlp
      simp only at hrlp
      have hp7 : st7.pending_message_ids = st.pending_message_ids ++ [m.messageId] := by
        rw [hrlp, hpro]
      have hmem7 : m.messageId ∈ st7.pending_message_ids := by
        rw [hp7]; exact List.mem_append_right _ (by simp)
      obtain ⟨l2, hclean, hcount⟩ :=
        pending_cleanup_append st7 m.messageId h st.pending_message_ids hp7
      cases res with
      | none =>
        have hred : process_message st m true (.completes evs) = (st7, false) := by
          simp only [process_message]; rw [hpe, hrl]; rfl
        rw [hred]
        refine ⟨?_, ?_, ?_⟩
        · intro _; exact hmem7
        · intro hsf; simp at hsf
        · intro ht; simp at ht
      | some pr =>
        obtain ⟨tidv, fin⟩ := pr
        cases fin with
        | none =>
          have hred : process_message st m true (.completes evs)
              = pending_cleanup st7 m.messageId := by
            simp only [process_message]; rw [hpe, hrl]; rfl
          rw [hred, hclean]
          refine ⟨?_, ?_, ?_⟩
          · intro hf; simp at hf
          · intro hsf; simp at hsf
          · intro _ _; exact hcount
        | some ev =>
          cases hevc : ev.content with
          | none =>
            have hred : process_message st m true (.completes evs)
                = pending_cleanup st7 m.messageId := by
              simp only [process_message]
              rw [hpe, hrl]
              simp only [hevc]
              try rfl
            rw [hred, hclean]
            refine ⟨?_, ?_, ?_⟩
            · intro hf; simp at hf
            · intro hsf; simp at hsf
            · intro _ _; exact hcount
          | some c =>
            cases hconv2 : adk_content_to_message st7.gen { c with role := some "model" }
                (some cid)
                (some (if ev.state_delta ≠ []
                  then strOfOpt (deltaGet ev.state_delta "task_id" m.taskId)
                  else strOfOpt tidv)) with
            | error e2 =>
              have hred : process_message st m true (.completes evs) = (st7, false) := by
                simp only [process_message]
                rw [hpe, hrl]
                simp only [hevc, hconv2]
                try rfl
              rw [hred]
              refine ⟨?_, ?_, ?_⟩
              · intro _; exact hmem7
              · intro hsf; simp at hsf
              · intro ht; simp at ht
            | ok pr2 =>
              obtain ⟨resp, g2⟩ := pr2
              set st8 : HostState :=
                { st7 with gen := g2, messages := st7.messages ++ [resp] } with hst8
              have hp8 : ∀ (stx : HostState),
                  stx.pending_message_ids = st7.pending_message_ids →
                  ∃ l3, pending_cleanup stx m.messageId
                    = ({ stx with pending_message_ids := l3 }, true) ∧
                    l3.count m.messageId = st.pending_message_ids.count m.messageId := by
                intro stx hx
                obtain ⟨l3, hc3, hn3⟩ := pending_cleanup_append stx m.messageId h
                  st.pending_message_ids (by rw [hx, hp7])
                exact ⟨l3, hc3, hn3⟩
              by_cases hcf : cf = true
              · obtain ⟨l3, hc3, hn3⟩ := hp8 (conv_append st8 cid resp)
                  (by simp [conv_append, hst8])
                have hred : process_message st m true (.completes evs)
                    = ({ conv_append st8 cid resp with pending_message_ids := l3 }, true) := by
                  simp only [process_message]
                  rw [hpe, hrl]
                  simp only [hevc, hconv2]
                  rw [if_pos hcf, ← hst8, hc3]
                  rfl
                rw [hred]
                refine ⟨?_, ?_, ?_⟩
                · intro hf; simp at hf
                · intro hsf; simp at hsf
                · intro _ _; exact hn3
              · obtain ⟨l3, hc3, hn3⟩ := hp8 st8 (by simp [hst8])
                have hred : process_message st m true (.completes evs)
                    = ({ st8 with pending_message_ids := l3 }, true) := by
                  simp only [process_message]
                  rw [hpe, hrl]
                  simp only [hevc, hconv2]
                  rw [if_neg hcf, ← hst8, hc3]
                  rfl
                rw [hred]
                refine ⟨?_, ?_, ?_⟩
                · intro hf; simp at hf
                · intro hsf; simp at hsf
                · intro _ _; exact hn3

def c9_message : Message :=
  { messageId := "M1", role := .user, parts := [.text "question"],
    contextId := some "C1", taskId := none }

/-- C9 witness: the pending-semantics theorem at a concrete message and a
dispatch that completes with an empty event stream. -/
theorem C9_witness :
    ((process_message emptyState c9_message true (.completes [])).2 = false →
      c9_message.messageId ∈
        (process_message emptyState c9_message true (.completes [])).1.pending_message_ids) ∧
    ((true : Bool) = false →
      c9_message.messageId ∈
        (process_message emptyState c9_message true (.completes [])).1.pending_message_ids) ∧
    ((process_message emptyState c9_message true (.completes [])).2 = true →
      (true : Bool) = true →
      ((process_message emptyState c9_message true
          (.completes [])).1.pending_message_ids.count c9_message.messageId
        = emptyState.pending_message_ids.count c9_message.messageId)) :=
  C9_pending_message_semantics emptyState c9_message true (.completes []) (by decide)

end A2A
